import Mathlib

/-!
Verification of the per-author streaming aggregator in
`src/consumers/project_consumer_wilcox.py`.

The consumer keeps three module-level dictionaries:
`author_counts` (a `defaultdict(int)`), `last_seen_timestamps` and
`average_deltas`.  For every received payload, `process_message`
parses it as JSON, and when the result is a dict it extracts the
`author` field (defaulting to `"unknown"` when the field is absent),
increments the author's count, and updates the author's smoothed
inter-arrival average: `0.0` on the first event, otherwise
`round((prev_avg + time_diff) / 2, 2)` where `time_diff` is the gap
between the current observation time (`time.time()`) and the stored
last-seen time.  Afterwards it stores the observation time as the
author's last-seen marker and redraws the charts.  `JSONDecodeError`
and any other exception (including chart/render failures) are caught
inside `process_message`.

We embed the state as total maps `String → Nat` / `String → Option ℚ`
(a Python dict is a partial map; `none` means the key is absent, and
for the `defaultdict` membership coincides with a nonzero count for
every reachable state).  Timestamps and averages are modelled as exact
rationals; Python's `round(x, 2)` is modelled as round-half-to-even at
two decimal digits, which agrees with CPython on every value used in a
concrete computation below.
-/

namespace ProjectConsumerWilcox

/-- Round half to even to the nearest integer, the tie-breaking rule of
Python's built-in `round`. -/
def roundHalfEven (q : ℚ) : ℤ :=
  let f := ⌊q⌋
  let frac := q - (f : ℚ)
  if frac < 1/2 then f
  else if 1/2 < frac then f + 1
  else if f % 2 = 0 then f else f + 1

/-- Models Python `round(q, 2)` (line 106 of the source) over exact
rationals: round half to even at two decimal digits. -/
def round2 (q : ℚ) : ℚ := (roundHalfEven (q * 100) : ℚ) / 100

/-- Result of `json.loads` on a raw payload, as far as `process_message`
inspects it: the parse may fail (`malformed`, raising `JSONDecodeError`),
succeed with a top-level value that is not a dict (`nonDict`: scalar or
array), or succeed with a dict carrying an optional `author` field.
Fields other than `author` are never read by the consumer, so they are
not represented. -/
inductive Payload where
  | malformed : Payload
  | nonDict : Payload
  | obj : Option String → Payload

/-- The three module-level dictionaries of the consumer (lines 45-47 of
the source): `author_counts = defaultdict(int)`,
`last_seen_timestamps = {}`, `average_deltas = {}`. -/
structure ConsumerState where
  author_counts : String → Nat
  last_seen_timestamps : String → Option ℚ
  average_deltas : String → Option ℚ

/-- The state at module load: all three dictionaries empty. -/
def initialState : ConsumerState :=
  { author_counts := fun _ => 0
    last_seen_timestamps := fun _ => none
    average_deltas := fun _ => none }

/-- Line 97 of the source: `message_dict.get("author", "unknown")` — the
default is used only when the `author` field is absent. -/
def eventAuthor (authorField : Option String) : String :=
  authorField.getD "unknown"

/-- Lines 98-110 of the source, the state mutation for a dict payload:
increment the author's count; if the author has a stored last-seen time,
set `average_deltas[author] = round((prev_avg + time_diff) / 2, 2)` with
`time_diff = current_time - last_seen_timestamps[author]` and
`prev_avg = average_deltas.get(author, time_diff)`; otherwise set
`average_deltas[author] = 0.0`; finally store `current_time` as the
author's last-seen time.  No clamping of a negative `time_diff` occurs
anywhere. -/
def update_author_state (s : ConsumerState) (author : String) (current_time : ℚ) :
    ConsumerState :=
  let new_counts : String → Nat :=
    fun a => if a = author then s.author_counts a + 1 else s.author_counts a
  let new_avg : String → Option ℚ :=
    match s.last_seen_timestamps author with
    | some prevSeen =>
        let time_diff := current_time - prevSeen
        let prev_avg := (s.average_deltas author).getD time_diff
        let new_average := (prev_avg + time_diff) / 2
        fun a => if a = author then some (round2 new_average) else s.average_deltas a
    | none =>
        fun a => if a = author then some 0 else s.average_deltas a
  let new_seen : String → Option ℚ :=
    fun a => if a = author then some current_time else s.last_seen_timestamps a
  { author_counts := new_counts
    last_seen_timestamps := new_seen
    average_deltas := new_avg }

/-- Exceptions that can arise inside the `try` body of `process_message`:
`json.loads` raising `JSONDecodeError` (line 118), or `update_charts()`
raising any exception, e.g. a matplotlib failure (caught by the generic
handler at line 120). -/
inductive PyError where
  | jsonDecodeError : PyError
  | renderError : PyError

/-- The `try` body of `process_message` (lines 91-116).  `current_time`
is the value of `time.time()` at line 101 and `renderFails` says whether
the `update_charts()` call at line 112 raises.  An error carries the
state at the moment of raising: Python performs no rollback, so a render
failure carries the fully mutated state. -/
def process_message_body (s : ConsumerState) (p : Payload) (current_time : ℚ)
    (renderFails : Bool) : Except (PyError × ConsumerState) ConsumerState :=
  match p with
  | .malformed => .error (.jsonDecodeError, s)
  | .nonDict => .ok s
  | .obj authorField =>
      let author := eventAuthor authorField
      let s' := update_author_state s author current_time
      if renderFails then .error (.renderError, s') else .ok s'

/-- Lines 90-121 of the source: the `try` body wrapped in the
`except json.JSONDecodeError` / `except Exception` handlers, which log
and return, leaving the state as it was at the moment of raising.  The
function is total: no exception escapes. -/
def process_message (s : ConsumerState) (p : Payload) (current_time : ℚ)
    (renderFails : Bool) : ConsumerState :=
  match process_message_body s p current_time renderFails with
  | .ok s' => s'
  | .error (_, s') => s'

/-- One event as the driver loop sees it: the raw payload (already
classified by `json.loads`), the wall-clock time at which
`process_message` observes it, and whether the chart redraw fails. -/
structure EventInput where
  payload : Payload
  current_time : ℚ
  renderFails : Bool

/-- Processing one `EventInput`. -/
def processEvent (s : ConsumerState) (e : EventInput) : ConsumerState :=
  process_message s e.payload e.current_time e.renderFails

/-- The driver loop (lines 135-138): process a list of events in order. -/
def processAll (s : ConsumerState) (evs : List EventInput) : ConsumerState :=
  evs.foldl processEvent s

/-- Whether an event is attributed to author `A`: it parses to a dict
and its effective author (after the `"unknown"` default) is `A`. -/
def attributedTo (A : String) (e : EventInput) : Bool :=
  match e.payload with
  | .obj authorField => eventAuthor authorField = A
  | _ => false
/-- Predicate recording that the three dictionaries hold exactly the
same keys (membership in the `defaultdict` `author_counts` being a
nonzero count). -/
def statesConsistent (s : ConsumerState) : Prop :=
  ∀ a, (s.author_counts a ≠ 0 ↔ (s.last_seen_timestamps a).isSome = true) ∧
    ((s.last_seen_timestamps a).isSome = true ↔ (s.average_deltas a).isSome = true)

theorem update_author_state_counts (s : ConsumerState) (author : String) (t : ℚ)
    (b : String) :
    (update_author_state s author t).author_counts b =
      if b = author then s.author_counts b + 1 else s.author_counts b := by
  unfold update_author_state
  cases h : s.last_seen_timestamps author <;> simp [h]

theorem update_author_state_seen (s : ConsumerState) (author : String) (t : ℚ)
    (b : String) :
    (update_author_state s author t).last_seen_timestamps b =
      if b = author then some t else s.last_seen_timestamps b := by
  unfold update_author_state
  cases h : s.last_seen_timestamps author <;> simp [h]

theorem update_author_state_avg_of_seen (s : ConsumerState) (author : String) (t : ℚ)
    (p : ℚ) (h : s.last_seen_timestamps author = some p) (b : String) :
    (update_author_state s author t).average_deltas b =
      if b = author then
        some (round2 (((s.average_deltas author).getD (t - p) + (t - p)) / 2))
      else s.average_deltas b := by
  unfold update_author_state
  simp [h]

theorem update_author_state_avg_of_not_seen (s : ConsumerState) (author : String)
    (t : ℚ) (h : s.last_seen_timestamps author = none) (b : String) :
    (update_author_state s author t).average_deltas b =
      if b = author then some 0 else s.average_deltas b := by
  unfold update_author_state
  simp [h]

theorem update_author_state_avg_other (s : ConsumerState) (author : String) (t : ℚ)
    (b : String) (h : b ≠ author) :
    (update_author_state s author t).average_deltas b = s.average_deltas b := by
  unfold update_author_state
  cases hs : s.last_seen_timestamps author <;> simp [hs, h]

theorem process_message_obj (s : ConsumerState) (authorField : Option String) (t : ℚ)
    (r : Bool) :
    process_message s (.obj authorField) t r =
      update_author_state s (eventAuthor authorField) t := by
  cases r <;> rfl

theorem avg_step (s : ConsumerState) (author : String) (t p v : ℚ)
    (hseen : s.last_seen_timestamps author = some p)
    (havg : s.average_deltas author = some v) :
    (update_author_state s author t).average_deltas author =
      some (round2 ((v + (t - p)) / 2)) := by
  rw [update_author_state_avg_of_seen _ _ _ _ hseen]
  simp [havg]

theorem processAll_nil (s : ConsumerState) : processAll s [] = s := rfl

theorem processAll_cons (s : ConsumerState) (e : EventInput) (evs : List EventInput) :
    processAll s (e :: evs) = processAll (processEvent s e) evs := rfl

theorem processEvent_author_counts (s : ConsumerState) (e : EventInput) (A : String) :
    (processEvent s e).author_counts A =
      s.author_counts A + (if attributedTo A e then 1 else 0) := by
  obtain ⟨p, t, r⟩ := e
  cases p with
  | malformed => rfl
  | nonDict => rfl
  | obj authorField =>
      by_cases h : eventAuthor authorField = A
      · simp [processEvent, process_message_obj, update_author_state_counts,
              attributedTo, h]
      · have h' : A ≠ eventAuthor authorField := fun hh => h hh.symm
        simp [processEvent, process_message_obj, update_author_state_counts,
              attributedTo, h, h']

theorem processAll_author_counts (A : String) (evs : List EventInput) :
    ∀ s : ConsumerState,
      (processAll s evs).author_counts A =
        s.author_counts A + evs.countP (attributedTo A) := by
  induction evs with
  | nil => intro s; simp [processAll_nil]
  | cons e evs ih =>
      intro s
      rw [processAll_cons, ih, processEvent_author_counts]
      by_cases h : attributedTo A e
      · simp [List.countP_cons, h]
        omega
      · simp [List.countP_cons, h]

theorem roundHalfEven_nonneg (q : ℚ) (h : 0 ≤ q) : 0 ≤ roundHalfEven q := by
  have hf : 0 ≤ ⌊q⌋ := Int.floor_nonneg.mpr h
  simp only [roundHalfEven]
  split_ifs <;> omega

theorem round2_nonneg (q : ℚ) (h : 0 ≤ q) : 0 ≤ round2 q := by
  unfold round2
  have h100 : (0:ℚ) ≤ q * 100 := by positivity
  have := roundHalfEven_nonneg (q * 100) h100
  have hcast : (0:ℚ) ≤ (roundHalfEven (q * 100) : ℚ) := by exact_mod_cast this
  positivity
/-- Claim C2 (confirmed): the first well-formed event for a
previously-unseen author creates that author's stats with count 1,
last-seen equal to the observation time, and average exactly 0;
the average is touched again only from the second event on. -/
theorem first_event_cold_start (s : ConsumerState) (authorField : Option String)
    (A : String) (t : ℚ) (r : Bool) (hA : eventAuthor authorField = A)
    (hcount : s.author_counts A = 0) (hseen : s.last_seen_timestamps A = none) :
    (process_message s (.obj authorField) t r).author_counts A = 1 ∧
    (process_message s (.obj authorField) t r).last_seen_timestamps A = some t ∧
    (process_message s (.obj authorField) t r).average_deltas A = some 0 := by
  rw [process_message_obj, hA]
  refine ⟨?_, ?_, ?_⟩
  · rw [update_author_state_counts]; simp [hcount]
  · rw [update_author_state_seen]; simp
  · rw [update_author_state_avg_of_not_seen _ _ _ hseen]; simp

/-- Concrete instance of the cold-start theorem at the empty state. -/
theorem first_event_cold_start_witness :
    (process_message initialState (.obj (some "alice")) 42 false).author_counts "alice" = 1 ∧
    (process_message initialState (.obj (some "alice")) 42 false).last_seen_timestamps "alice" = some 42 ∧
    (process_message initialState (.obj (some "alice")) 42 false).average_deltas "alice" = some 0 :=
  first_event_cold_start initialState (some "alice") "alice" 42 false rfl rfl rfl

/-- Claim C3 (confirmed): after any interleaved event sequence, an
author's count is exactly the number of well-formed events attributed to
that author, and each single event changes the count by exactly one when
attributed to the author and not at all otherwise. -/
theorem count_equals_attributed_events (A : String) :
    (∀ evs : List EventInput,
      (processAll initialState evs).author_counts A = evs.countP (attributedTo A)) ∧
    (∀ (s : ConsumerState) (e : EventInput),
      (processEvent s e).author_counts A =
        if attributedTo A e then s.author_counts A + 1 else s.author_counts A) := by
  constructor
  · intro evs
    rw [processAll_author_counts]
    simp [initialState]
  · intro s e
    rw [processEvent_author_counts]
    by_cases h : attributedTo A e <;> simp [h]

/-- Claim C6 (confirmed): a syntactically invalid payload or a payload
whose top-level value is not an object leaves the whole state unchanged,
the raised decode error is caught with the state intact, and the driver
loop continues with the remaining events. -/
theorem malformed_input_no_mutation (s : ConsumerState) (t : ℚ) (r : Bool) :
    process_message s .malformed t r = s ∧
    process_message s .nonDict t r = s ∧
    process_message_body s .malformed t r = .error (.jsonDecodeError, s) ∧
    (∀ (evs : List EventInput) (t2 : ℚ) (r2 : Bool),
      processAll s (⟨.malformed, t2, r2⟩ :: evs) = processAll s evs ∧
      processAll s (⟨.nonDict, t2, r2⟩ :: evs) = processAll s evs) := by
  exact ⟨rfl, rfl, rfl, fun evs t2 r2 => ⟨rfl, rfl⟩⟩

/-- Concrete instance of the malformed-input theorem. -/
theorem malformed_input_no_mutation_witness :
    process_message initialState .malformed 7 false = initialState ∧
    process_message initialState .nonDict 7 false = initialState ∧
    process_message_body initialState .malformed 7 false =
      .error (.jsonDecodeError, initialState) ∧
    (∀ (evs : List EventInput) (t2 : ℚ) (r2 : Bool),
      processAll initialState (⟨.malformed, t2, r2⟩ :: evs) = processAll initialState evs ∧
      processAll initialState (⟨.nonDict, t2, r2⟩ :: evs) = processAll initialState evs) :=
  malformed_input_no_mutation initialState 7 false

/-- Claim C7 (confirmed): an event attributed to one author leaves the
count, last-seen time and average of every other author unchanged. -/
theorem key_isolation (s : ConsumerState) (authorField : Option String) (t : ℚ)
    (r : Bool) (A : String) (h : A ≠ eventAuthor authorField) :
    (process_message s (.obj authorField) t r).author_counts A = s.author_counts A ∧
    (process_message s (.obj authorField) t r).last_seen_timestamps A =
      s.last_seen_timestamps A ∧
    (process_message s (.obj authorField) t r).average_deltas A =
      s.average_deltas A := by
  rw [process_message_obj]
  exact ⟨by rw [update_author_state_counts]; simp [h],
         by rw [update_author_state_seen]; simp [h],
         update_author_state_avg_other _ _ _ _ h⟩

/-- Concrete instance of key isolation: an event for `"y"` leaves the
stats of `"x"` untouched. -/
theorem key_isolation_witness :
    (process_message (processAll initialState [⟨.obj (some "x"), 100, false⟩])
      (.obj (some "y")) 105 false).author_counts "x" = 1 ∧
    (process_message (processAll initialState [⟨.obj (some "x"), 100, false⟩])
      (.obj (some "y")) 105 false).last_seen_timestamps "x" = some 100 ∧
    (process_message (processAll initialState [⟨.obj (some "x"), 100, false⟩])
      (.obj (some "y")) 105 false).average_deltas "x" = some 0 := by
  have hs : processAll initialState [⟨.obj (some "x"), 100, false⟩] =
      update_author_state initialState "x" 100 := by
    simp [processAll, processEvent, process_message_obj, eventAuthor]
  have h := key_isolation (processAll initialState [⟨.obj (some "x"), 100, false⟩])
    (some "y") 105 false "x" (by simp [eventAuthor])
  refine ⟨?_, ?_, ?_⟩
  · rw [h.1, hs, update_author_state_counts]; simp [initialState]
  · rw [h.2.1, hs, update_author_state_seen]; simp
  · rw [h.2.2, hs,
        update_author_state_avg_of_not_seen _ _ _ (by simp [initialState] : initialState.last_seen_timestamps "x" = none)]
    simp

/-- Claim C8 (confirmed): a failing chart redraw is caught after all
per-author mutations have completed, so the resulting state is exactly
the state produced when rendering succeeds, and no exception escapes. -/
theorem render_failure_state_unaffected (s : ConsumerState) (p : Payload) (t : ℚ) :
    process_message s p t true = process_message s p t false ∧
    (∀ authorField, process_message s (.obj authorField) t true =
      update_author_state s (eventAuthor authorField) t) := by
  constructor
  · cases p <;> rfl
  · intro authorField; rfl

/-- Counterexample to claim C9 as stated: a payload whose `author` field
is the empty string is attributed to the key `""`, not to the sentinel
`"unknown"` — only a missing field triggers the default of
`message_dict.get("author", "unknown")`. -/
theorem empty_author_key_cex :
    (process_message initialState (.obj (some "")) 0 false).author_counts "unknown" = 0 ∧
    (process_message initialState (.obj (some "")) 0 false).author_counts "" = 1 := by
  constructor
  · rw [process_message_obj, update_author_state_counts]
    simp [eventAuthor, initialState]
  · rw [process_message_obj, update_author_state_counts]
    simp [eventAuthor, initialState]

/-- Claim C9 (corrected): only a missing `author` field is replaced by
the sentinel `"unknown"`; a present field — including the empty string —
is used verbatim as the key that is updated. -/
theorem author_default_only_when_missing (s : ConsumerState) (t : ℚ) (r : Bool) :
    eventAuthor none = "unknown" ∧
    (∀ a : String, eventAuthor (some a) = a) ∧
    (process_message s (.obj none) t r).author_counts "unknown" =
      s.author_counts "unknown" + 1 ∧
    (∀ a : String, (process_message s (.obj (some a)) t r).author_counts a =
      s.author_counts a + 1) := by
  refine ⟨rfl, fun a => rfl, ?_, fun a => ?_⟩
  · rw [process_message_obj, update_author_state_counts]
    simp [eventAuthor]
  · rw [process_message_obj, update_author_state_counts]
    simp [eventAuthor]
/-- Counterexample to claim C1 as stated: the stored average after a gap
of 1/8 second is round(1/16, 2) = 0.06 = 3/50, not the unrounded
recurrence value (0 + 1/8)/2 = 1/16 — line 106 rounds before storing. -/
theorem unrounded_recurrence_cex :
    (processAll initialState [⟨.obj (some "x"), 0, false⟩,
        ⟨.obj (some "x"), 1/8, false⟩]).average_deltas "x" = some (3/50) ∧
    (3/50 : ℚ) ≠ (0 + (1/8 - 0)) / 2 := by
  constructor
  · have hall : processAll initialState [⟨.obj (some "x"), 0, false⟩,
        ⟨.obj (some "x"), (1/8 : ℚ), false⟩] =
        update_author_state (update_author_state initialState "x" 0) "x" (1/8) := by
      simp [processAll, processEvent, process_message_obj, eventAuthor]
    rw [hall]
    have h1s : (update_author_state initialState "x" 0).last_seen_timestamps "x" =
        some 0 := by
      rw [update_author_state_seen]; simp
    have h1a : (update_author_state initialState "x" 0).average_deltas "x" =
        some 0 := by
      rw [update_author_state_avg_of_not_seen _ _ _ rfl]; simp
    rw [avg_step _ _ _ _ _ h1s h1a]
    norm_num [round2, roundHalfEven]
  · norm_num

/-- Claim C1 (corrected): from the second event on, the stored average
follows the recurrence avg_n = round((avg_{n-1} + d_n)/2, 2) — exactly
the claimed smoothing recurrence except that the result is rounded to
two decimals before storage; the first event initializes the average to
zero; and on the spec scenario with gaps 4 and 6 the result is exactly 4
(the rounding is the identity there), which is not the arithmetic mean
(4 + 6)/2 = 5 of the historical gaps. -/
theorem avg_recurrence_with_rounding :
    (∀ (s : ConsumerState) (authorField : Option String) (A : String)
      (prevSeen prevAvg t : ℚ) (r : Bool), eventAuthor authorField = A →
      s.last_seen_timestamps A = some prevSeen →
      s.average_deltas A = some prevAvg →
      (process_message s (.obj authorField) t r).average_deltas A =
        some (round2 ((prevAvg + (t - prevSeen)) / 2))) ∧
    (∀ (s : ConsumerState) (authorField : Option String) (A : String) (t : ℚ)
      (r : Bool), eventAuthor authorField = A →
      s.last_seen_timestamps A = none →
      (process_message s (.obj authorField) t r).average_deltas A = some 0) ∧
    ((processAll initialState [⟨.obj (some "x"), 100, false⟩,
        ⟨.obj (some "x"), 104, false⟩, ⟨.obj (some "y"), 105, false⟩,
        ⟨.obj (some "x"), 110, false⟩]).average_deltas "x" = some 4 ∧
      (4 : ℚ) ≠ (4 + 6) / 2) := by
  refine ⟨?_, ?_, ?_, ?_⟩
  · intro s authorField A prevSeen prevAvg t r hA hseen havg
    rw [process_message_obj, hA]
    exact avg_step _ _ _ _ _ hseen havg
  · intro s authorField A t r hA hseen
    rw [process_message_obj, hA, update_author_state_avg_of_not_seen _ _ _ hseen]
    simp
  · have hall : processAll initialState [⟨.obj (some "x"), 100, false⟩,
        ⟨.obj (some "x"), 104, false⟩, ⟨.obj (some "y"), 105, false⟩,
        ⟨.obj (some "x"), 110, false⟩] =
        update_author_state (update_author_state (update_author_state
          (update_author_state initialState "x" 100) "x" 104) "y" 105) "x" 110 := by
      simp [processAll, processEvent, process_message_obj, eventAuthor]
    have h1s : (update_author_state initialState "x" 100).last_seen_timestamps "x" =
        some 100 := by
      rw [update_author_state_seen]; simp
    have h1a : (update_author_state initialState "x" 100).average_deltas "x" =
        some 0 := by
      rw [update_author_state_avg_of_not_seen _ _ _ rfl]; simp
    have h2a : (update_author_state (update_author_state initialState "x" 100)
        "x" 104).average_deltas "x" = some 2 := by
      rw [avg_step _ _ _ _ _ h1s h1a]
      norm_num [round2, roundHalfEven]
    have h2s : (update_author_state (update_author_state initialState "x" 100)
        "x" 104).last_seen_timestamps "x" = some 104 := by
      rw [update_author_state_seen]; simp
    have h3a : (update_author_state (update_author_state (update_author_state
        initialState "x" 100) "x" 104) "y" 105).average_deltas "x" = some 2 := by
      rw [update_author_state_avg_other _ _ _ _ (by simp)]
      exact h2a
    have h3s : (update_author_state (update_author_state (update_author_state
        initialState "x" 100) "x" 104) "y" 105).last_seen_timestamps "x" =
        some 104 := by
      rw [update_author_state_seen]
      simp [h2s]
    rw [hall, avg_step _ _ _ _ _ h3s h3a]
    norm_num [round2, roundHalfEven]
  · norm_num

/-- Concrete instance of the rounded recurrence: the second event for
`"x"`, four seconds after the first, stores round((0 + 4)/2, 2) = 2. -/
theorem avg_recurrence_with_rounding_witness :
    (process_message (update_author_state initialState "x" 100) (.obj (some "x"))
      104 false).average_deltas "x" = some 2 := by
  have h := avg_recurrence_with_rounding.1 (update_author_state initialState "x" 100)
    (some "x") "x" 100 0 104 false rfl
    (by rw [update_author_state_seen]; simp)
    (by rw [update_author_state_avg_of_not_seen _ _ _ rfl]; simp)
  rw [h]
  norm_num [round2, roundHalfEven]

/-- Counterexample to claim C4 as stated: an out-of-order observation
time (second event six seconds before the first) stores the negative
average round((0 + (4 - 10))/2, 2) = -3 — the code never clamps the
negative delta. -/
theorem negative_average_cex :
    (processAll initialState [⟨.obj (some "x"), 10, false⟩,
        ⟨.obj (some "x"), 4, false⟩]).average_deltas "x" = some (-3) ∧
    ¬ (0 ≤ (-3 : ℚ)) := by
  constructor
  · have hall : processAll initialState [⟨.obj (some "x"), 10, false⟩,
        ⟨.obj (some "x"), 4, false⟩] =
        update_author_state (update_author_state initialState "x" 10) "x" 4 := by
      simp [processAll, processEvent, process_message_obj, eventAuthor]
    rw [hall]
    have h1s : (update_author_state initialState "x" 10).last_seen_timestamps "x" =
        some 10 := by
      rw [update_author_state_seen]; simp
    have h1a : (update_author_state initialState "x" 10).average_deltas "x" =
        some 0 := by
      rw [update_author_state_avg_of_not_seen _ _ _ rfl]; simp
    rw [avg_step _ _ _ _ _ h1s h1a]
    norm_num [round2, roundHalfEven]
  · norm_num

/-- Claim C4 (corrected): the code performs no clamping, so the stored
average stays nonnegative only under the monotonicity assumption: if
every stored average is nonnegative and the event's observation time is
not earlier than the stored last-seen time of the event's author, then
every stored average after the update is still nonnegative.  An
out-of-order timestamp violating the assumption can drive the stored
average negative. -/
theorem avg_nonneg_of_monotone (s : ConsumerState) (p : Payload) (t : ℚ) (r : Bool)
    (a : String) (v : ℚ)
    (hs : ∀ b w, s.average_deltas b = some w → 0 ≤ w)
    (ht : ∀ authorField q, p = .obj authorField →
      s.last_seen_timestamps (eventAuthor authorField) = some q → q ≤ t)
    (h : (process_message s p t r).average_deltas a = some v) : 0 ≤ v := by
  cases p with
  | malformed => exact hs a v h
  | nonDict => exact hs a v h
  | obj authorField =>
      rw [process_message_obj] at h
      cases hseen : s.last_seen_timestamps (eventAuthor authorField) with
      | none =>
          rw [update_author_state_avg_of_not_seen _ _ _ hseen] at h
          by_cases hb : a = eventAuthor authorField
          · simp [hb] at h
            linarith
          · simp [hb] at h
            exact hs a v h
      | some q =>
          have hqt : q ≤ t := ht authorField q rfl hseen
          have hdiff : 0 ≤ t - q := by linarith
          rw [update_author_state_avg_of_seen _ _ _ _ hseen] at h
          by_cases hb : a = eventAuthor authorField
          · simp [hb] at h
            have hprev : 0 ≤ (s.average_deltas (eventAuthor authorField)).getD (t - q) := by
              cases havg : s.average_deltas (eventAuthor authorField) with
              | none => simpa [havg] using hdiff
              | some w =>
                  have := hs (eventAuthor authorField) w havg
                  simpa [havg] using this
            have hhalf : 0 ≤ ((s.average_deltas (eventAuthor authorField)).getD (t - q)
                + (t - q)) / 2 :=
              div_nonneg (add_nonneg hprev hdiff) (by norm_num)
            rw [← h]
            exact round2_nonneg _ hhalf
          · simp [hb] at h
            exact hs a v h

/-- Concrete instance of the nonnegativity preservation theorem along
an in-order pair of events for `"x"`. -/
theorem avg_nonneg_of_monotone_witness :
    (process_message (update_author_state initialState "x" 100) (.obj (some "x"))
      104 false).average_deltas "x" = some 2 ∧ 0 ≤ (2 : ℚ) := by
  have hcomp : (process_message (update_author_state initialState "x" 100)
      (.obj (some "x")) 104 false).average_deltas "x" = some 2 := by
    rw [process_message_obj]
    have hE : eventAuthor (some "x") = "x" := rfl
    rw [hE]
    have h1s : (update_author_state initialState "x" 100).last_seen_timestamps "x" =
        some 100 := by
      rw [update_author_state_seen]; simp
    have h1a : (update_author_state initialState "x" 100).average_deltas "x" =
        some 0 := by
      rw [update_author_state_avg_of_not_seen _ _ _ rfl]; simp
    rw [avg_step _ _ _ _ _ h1s h1a]
    norm_num [round2, roundHalfEven]
  refine ⟨hcomp, ?_⟩
  refine avg_nonneg_of_monotone (update_author_state initialState "x" 100)
    (.obj (some "x")) 104 false "x" 2 ?_ ?_ hcomp
  · intro b w hw
    rw [update_author_state_avg_of_not_seen _ _ _ rfl] at hw
    by_cases hb : b = "x"
    · simp [hb] at hw
      linarith
    · simp [hb, initialState] at hw
  · intro authorField q hp hq
    cases hp
    have hE : eventAuthor (some "x") = "x" := rfl
    rw [hE, update_author_state_seen] at hq
    simp at hq
    linarith [hq.symm.le]
/-- Counterexample to claim C5 as stated: after a gap of 1/4 second the
stored state holds round(1/8, 2) = 0.12 = 3/25, which differs from the
unrounded recurrence result (0 + 1/4)/2 = 1/8 — the rounding of line 106
happens at storage, not only at display time. -/
theorem rounding_at_storage_cex :
    (processAll initialState [⟨.obj (some "x"), 0, false⟩,
        ⟨.obj (some "x"), 1/4, false⟩]).average_deltas "x" = some (3/25) ∧
    (3/25 : ℚ) ≠ (0 + (1/4 - 0)) / 2 := by
  constructor
  · have hall : processAll initialState [⟨.obj (some "x"), 0, false⟩,
        ⟨.obj (some "x"), (1/4 : ℚ), false⟩] =
        update_author_state (update_author_state initialState "x" 0) "x" (1/4) := by
      simp [processAll, processEvent, process_message_obj, eventAuthor]
    rw [hall]
    have h1s : (update_author_state initialState "x" 0).last_seen_timestamps "x" =
        some 0 := by
      rw [update_author_state_seen]; simp
    have h1a : (update_author_state initialState "x" 0).average_deltas "x" =
        some 0 := by
      rw [update_author_state_avg_of_not_seen _ _ _ rfl]; simp
    rw [avg_step _ _ _ _ _ h1s h1a]
    norm_num [round2, roundHalfEven]
  · norm_num

/-- Claim C5 (corrected): the value stored in `average_deltas` is the
two-decimal rounded value round((prevAvg + delta)/2, 2), and that stored
rounded value — not the unrounded one — is the `prevAvg` input of the
following update, so rounding error compounds in the stored state. -/
theorem avg_stored_rounded_feeds_next (s : ConsumerState)
    (authorField : Option String) (A : String) (p0 a0 t1 t2 : ℚ) (r1 r2 : Bool)
    (hA : eventAuthor authorField = A)
    (hseen : s.last_seen_timestamps A = some p0)
    (havg : s.average_deltas A = some a0) :
    (process_message s (.obj authorField) t1 r1).average_deltas A =
      some (round2 ((a0 + (t1 - p0)) / 2)) ∧
    (process_message (process_message s (.obj authorField) t1 r1)
        (.obj authorField) t2 r2).average_deltas A =
      some (round2 ((round2 ((a0 + (t1 - p0)) / 2) + (t2 - t1)) / 2)) := by
  constructor
  · rw [process_message_obj, hA]
    exact avg_step _ _ _ _ _ hseen havg
  · rw [process_message_obj, process_message_obj, hA]
    have hseen1 : (update_author_state s A t1).last_seen_timestamps A = some t1 := by
      rw [update_author_state_seen]; simp
    have havg1 : (update_author_state s A t1).average_deltas A =
        some (round2 ((a0 + (t1 - p0)) / 2)) :=
      avg_step _ _ _ _ _ hseen havg
    exact avg_step _ _ _ _ _ hseen1 havg1

/-- Concrete instance of the compounding rounding: gaps 1/4 and 1/4
yield stored value round((round(1/8, 2) + 1/4)/2, 2) = 0.18 = 9/50,
while rounding only at display would give (1/8 + 1/4)/2 = 3/16. -/
theorem avg_stored_rounded_feeds_next_witness :
    (process_message (process_message (update_author_state initialState "x" 0)
        (.obj (some "x")) (1/4) false) (.obj (some "x")) (1/2) false).average_deltas
      "x" = some (9/50) ∧ (9/50 : ℚ) ≠ ((1/8 : ℚ) + (1/2 - 1/4)) / 2 := by
  have h := (avg_stored_rounded_feeds_next (update_author_state initialState "x" 0)
    (some "x") "x" 0 0 (1/4) (1/2) false false rfl
    (by rw [update_author_state_seen]; simp)
    (by rw [update_author_state_avg_of_not_seen _ _ _ rfl]; simp)).2
  constructor
  · rw [h]
    norm_num [round2, roundHalfEven]
  · norm_num

/-- Preservation of the equal-key-set invariant by one event. -/
theorem statesConsistent_processEvent (s : ConsumerState) (e : EventInput)
    (hs : statesConsistent s) : statesConsistent (processEvent s e) := by
  obtain ⟨p, t, r⟩ := e
  cases p with
  | malformed => exact hs
  | nonDict => exact hs
  | obj authorField =>
      have hred : processEvent s ⟨.obj authorField, t, r⟩ =
          update_author_state s (eventAuthor authorField) t :=
        process_message_obj s authorField t r
      rw [hred]
      intro a
      by_cases hb : a = eventAuthor authorField
      · refine ⟨?_, ?_⟩
        · rw [update_author_state_counts, update_author_state_seen]
          simp [hb]
        · rw [update_author_state_seen]
          cases hseen : s.last_seen_timestamps (eventAuthor authorField) with
          | none =>
              rw [update_author_state_avg_of_not_seen _ _ _ hseen]
              simp [hb]
          | some q =>
              rw [update_author_state_avg_of_seen _ _ _ _ hseen]
              simp [hb]
      · refine ⟨?_, ?_⟩
        · rw [update_author_state_counts, update_author_state_seen]
          simp [hb]
          exact (hs a).1
        · rw [update_author_state_seen, update_author_state_avg_other _ _ _ _ hb]
          simp [hb]
          exact Bool.eq_iff_iff.mpr (hs a).2

/-- Preservation of the equal-key-set invariant by a whole run. -/
theorem statesConsistent_processAll (evs : List EventInput) :
    ∀ s : ConsumerState, statesConsistent s → statesConsistent (processAll s evs) := by
  induction evs with
  | nil => intro s hs; exact hs
  | cons e evs ih =>
      intro s hs
      rw [processAll_cons]
      exact ih _ (statesConsistent_processEvent s e hs)

/-- Claim C10 (confirmed): after any run from the empty start the three
dictionaries hold exactly the same keys; consequently an author with a
stored last-seen time always has a stored average (so the `.get`
fallback at line 104 is never taken), and every author with a nonzero
count has a stored average (so the chart lookup at line 74 cannot
miss). -/
theorem reachable_key_sets_agree :
    (∀ evs : List EventInput, statesConsistent (processAll initialState evs)) ∧
    (∀ (evs : List EventInput) (a : String) (q : ℚ),
      (processAll initialState evs).last_seen_timestamps a = some q →
      (processAll initialState evs).average_deltas a ≠ none) ∧
    (∀ (evs : List EventInput) (a : String),
      (processAll initialState evs).author_counts a ≠ 0 →
      (processAll initialState evs).average_deltas a ≠ none) := by
  have hinit : statesConsistent initialState := by
    intro a
    simp [initialState]
  have hall : ∀ evs : List EventInput, statesConsistent (processAll initialState evs) :=
    fun evs => statesConsistent_processAll evs initialState hinit
  refine ⟨hall, ?_, ?_⟩
  · intro evs a q hq
    have h := ((hall evs) a).2.1
    rw [hq] at h
    simp at h
    intro hnone
    rw [hnone] at h
    simp at h
  · intro evs a hc
    have h1 := ((hall evs) a).1.1 hc
    have h2 := ((hall evs) a).2.1 h1
    intro hnone
    rw [hnone] at h2
    simp at h2

/-- Concrete instance: after the first event for `"x"` the stored
average for `"x"` is present. -/
theorem reachable_key_sets_agree_witness :
    (processAll initialState [⟨.obj (some "x"), 100, false⟩]).average_deltas
      "x" ≠ none := by
  refine reachable_key_sets_agree.2.1 [⟨.obj (some "x"), 100, false⟩] "x" 100 ?_
  have hs : processAll initialState [⟨.obj (some "x"), 100, false⟩] =
      update_author_state initialState "x" 100 := by
    simp [processAll, processEvent, process_message_obj, eventAuthor]
  rw [hs, update_author_state_seen]
  simp

end ProjectConsumerWilcox
